import Mathlib

/-!
Shallow embedding of the core of the `notes-web-app` repository:
the notes/tags store (`src/store/useNotesStore.ts`), the persistence
adapter (`src/utils/storage.ts`), and the auto-save pipeline
(`src/hooks/useAutoSave.ts`, `src/pages/NoteDetailPage.tsx`), together
with theorems settling the specification claims about them.

Modelling conventions:
* JS strings are Lean `String`s; `String.prototype.toLowerCase`,
  `trim` and `includes` are embedded as explicit functions over the
  character list (`jsToLower`, `jsTrim`, `jsIncludes`), with the ASCII
  letter case mapping (the data in this application is id strings and
  user text; the embedding models the ASCII core of the JS behaviour).
* `uuidv4()` and `new Date().toISOString()` are nondeterministic inputs
  of the environment; the embedding passes them as explicit parameters.
* JS objects used as string-keyed records (`Record<string, Tag>`,
  `localStorage`) are association lists with JS assignment semantics
  (existing key updated in place, fresh key appended).
-/

namespace NotesApp

/-! ## JS string primitives -/

/-- The whitespace characters relevant to `String.prototype.trim`
(ASCII core: space, tab, newline, carriage return). -/
def isWs (c : Char) : Bool :=
  c == ' ' || c == '\t' || c == '\n' || c == '\r'

/-- `trim` on a character list: drop whitespace from both ends. -/
def jsTrimList (l : List Char) : List Char :=
  ((l.dropWhile isWs).reverse.dropWhile isWs).reverse

/-- Embedding of `s.trim()`. -/
def jsTrim (s : String) : String :=
  ⟨jsTrimList s.data⟩

/-- Embedding of `s.toLowerCase()` (ASCII case mapping). -/
def jsToLower (s : String) : String :=
  ⟨s.data.map Char.toLower⟩

/-- Does `sub` occur as a contiguous run inside `hay`? -/
def containsSub (hay sub : List Char) : Bool :=
  sub.isPrefixOf hay ||
    match hay with
    | [] => false
    | _ :: t => containsSub t sub

/-- Embedding of `s.includes(sub)`. -/
def jsIncludes (s sub : String) : Bool :=
  containsSub s.data sub.data

/-! ## Data model (`src/types/index.ts`) -/

/-- A note record. -/
structure Note where
  id : String
  title : String
  content : String
  tags : List String
  createdAt : String
  updatedAt : String
deriving DecidableEq, Repr

/-- A tag record. -/
structure Tag where
  id : String
  name : String
  color : String
deriving DecidableEq, Repr

/-- `NoteFormData`: payload for creating notes. -/
structure NoteFormData where
  title : String
  content : String
  tags : List String
deriving DecidableEq, Repr

/-- `TagFormData`: payload for creating tags. -/
structure TagFormData where
  name : String
  color : String
deriving DecidableEq, Repr

/-- `Partial<NoteFormData>`: each field optionally present. -/
structure NoteUpdate where
  title : Option String
  content : Option String
  tags : Option (List String)
deriving DecidableEq, Repr

/-! ## Store state (`src/store/useNotesStore.ts`) -/

/-- JS record assignment `acc[k] = v` on an association list:
update the existing entry in place, or append a fresh one. -/
def recordSet {α : Type} (acc : List (String × α)) (k : String) (v : α) :
    List (String × α) :=
  if acc.any (fun p => p.1 == k) then
    acc.map (fun p => if p.1 == k then (k, v) else p)
  else
    acc ++ [(k, v)]

/-- `buildTagsById`: fold the tag list into an id-keyed record. -/
def buildTagsById (tags : List Tag) : List (String × Tag) :=
  tags.foldl (fun acc tag => recordSet acc tag.id tag) []

/-- The data and filter portion of `NotesState` (the actions are the
functions below, taking the state explicitly). -/
structure NotesState where
  notes : List Note
  tags : List Tag
  selectedNote : Option Note
  tagsById : List (String × Tag)
  searchQuery : String
  selectedTags : List String
deriving DecidableEq, Repr

/-- `addNote`: build a note from the form data with a fresh id and the
current timestamp, prepend it, and return it. -/
def addNote (freshId now : String) (data : NoteFormData) (st : NotesState) :
    Note × NotesState :=
  let newNote : Note :=
    { id := freshId, title := data.title, content := data.content,
      tags := data.tags, createdAt := now, updatedAt := now }
  (newNote, { st with notes := newNote :: st.notes })

/-- Merge a partial update into a note (`{...note, ...updates}` with a
refreshed `updatedAt`). -/
def applyUpdate (note : Note) (u : NoteUpdate) (now : String) : Note :=
  { note with
    title := u.title.getD note.title,
    content := u.content.getD note.content,
    tags := u.tags.getD note.tags,
    updatedAt := now }

/-- `updateNote`: merge the updates into the matching note and refresh
`selectedNote` from the updated sequence when it is the edited note. -/
def updateNote (now id : String) (u : NoteUpdate) (st : NotesState) :
    NotesState :=
  let updatedNotes :=
    st.notes.map (fun note => if note.id == id then applyUpdate note u now else note)
  let updatedSelectedNote :=
    match st.selectedNote with
    | some n => if n.id == id then updatedNotes.find? (fun m => m.id == id) else some n
    | none => none
  { st with notes := updatedNotes, selectedNote := updatedSelectedNote }

/-- `deleteNote`: filter the note out and clear the selection when the
deleted note was selected. -/
def deleteNote (id : String) (st : NotesState) : NotesState :=
  let updatedNotes := st.notes.filter (fun note => !(note.id == id))
  let updatedSelectedNote :=
    match st.selectedNote with
    | some n => if n.id == id then none else some n
    | none => none
  { st with notes := updatedNotes, selectedNote := updatedSelectedNote }

/-- `selectNote`. -/
def selectNote (note : Option Note) (st : NotesState) : NotesState :=
  { st with selectedNote := note }

/-- `addTag`: append a tag with a fresh id and rebuild the lookup map. -/
def addTag (freshId : String) (data : TagFormData) (st : NotesState) :
    NotesState :=
  let newTag : Tag := { id := freshId, name := data.name, color := data.color }
  let updatedTags := st.tags ++ [newTag]
  { st with tags := updatedTags, tagsById := buildTagsById updatedTags }

/-- `deleteTag`: remove the tag, remove its id from every note's tag
set and from the selected-tags filter, and rebuild the lookup map —
all in the single state transition produced by one `set` call. -/
def deleteTag (id : String) (st : NotesState) : NotesState :=
  let updatedTags := st.tags.filter (fun tag => !(tag.id == id))
  let updatedNotes :=
    st.notes.map (fun note => { note with tags := note.tags.filter (fun tagId => !(tagId == id)) })
  let updatedSelectedTags := st.selectedTags.filter (fun tagId => !(tagId == id))
  { st with
    tags := updatedTags,
    tagsById := buildTagsById updatedTags,
    notes := updatedNotes,
    selectedTags := updatedSelectedTags }

/-- `setSearchQuery`. -/
def setSearchQuery (query : String) (st : NotesState) : NotesState :=
  { st with searchQuery := query }

/-- `setSelectedTags`. -/
def setSelectedTags (tags : List String) (st : NotesState) : NotesState :=
  { st with selectedTags := tags }

/-- `toggleTagFilter`. -/
def toggleTagFilter (tagId : String) (st : NotesState) : NotesState :=
  let isSelected := st.selectedTags.contains tagId
  let updatedTags :=
    if isSelected then st.selectedTags.filter (fun id => !(id == tagId))
    else st.selectedTags ++ [tagId]
  { st with selectedTags := updatedTags }

/-- `clearFilters`. -/
def clearFilters (st : NotesState) : NotesState :=
  { st with searchQuery := "", selectedTags := [] }

/-- `selectFilteredNotes`: early-return when no filter is active,
otherwise filter on the trimmed lowercased query (substring of title or
content) and conjunctive tag matching. -/
def selectFilteredNotes (st : NotesState) : List Note :=
  if jsTrim st.searchQuery == "" && st.selectedTags.isEmpty then
    st.notes
  else
    let searchLower := jsTrim (jsToLower st.searchQuery)
    st.notes.filter (fun note =>
      (searchLower == "" ||
        jsIncludes (jsToLower note.title) searchLower ||
        jsIncludes (jsToLower note.content) searchLower) &&
      (st.selectedTags.isEmpty ||
        st.selectedTags.all (fun tagId => note.tags.contains tagId)))

/-- The filtering predicate exactly as claim C1 words it: the query is
empty, or its lowercase form is a substring of the lowercase title or
content; and the selected tag set is empty, or every selected id is in
the note's tag set.  (Stated from the claim, for comparison with
`selectFilteredNotes`; the code additionally trims the query.) -/
def specMatchesClaim (q : String) (sel : List String) (note : Note) : Bool :=
  (q == "" ||
    jsIncludes (jsToLower note.title) (jsToLower q) ||
    jsIncludes (jsToLower note.content) (jsToLower q)) &&
  (sel.isEmpty || sel.all (fun t => note.tags.contains t))

/-- The filtering predicate as the amended claim words it: the trimmed
query is empty, or the trimmed lowercase query is a substring of the
lowercase title or content; and the selected tag set is empty, or
every selected id is in the note's tag set. -/
def specMatches (q : String) (sel : List String) (note : Note) : Bool :=
  (jsTrim q == "" ||
    jsIncludes (jsToLower note.title) (jsTrim (jsToLower q)) ||
    jsIncludes (jsToLower note.content) (jsTrim (jsToLower q))) &&
  (sel.isEmpty || sel.all (fun t => note.tags.contains t))

/-! ## Persistence adapter (`src/utils/storage.ts`)

`localStorage` holds strings produced by `JSON.stringify` and consumed
by `JSON.parse`.  The embedding keeps the parsed JSON trees as the
stored values: the platform pair `JSON.parse ∘ JSON.stringify` is the
identity on such trees, and the length of the string
`JSON.stringify` would produce is recovered by `jsonLen` for the
capacity check. -/

/-- JSON values produced/consumed by this application (strings, arrays
and string-keyed objects suffice for its note and tag records). -/
inductive JsonVal where
  | str : String → JsonVal
  | arr : List JsonVal → JsonVal
  | obj : List (String × JsonVal) → JsonVal

/-- Length contribution of one character inside a JSON string literal
(quote and backslash are escaped to two characters). -/
def escLen (c : Char) : Nat :=
  if c == '"' || c == '\\' then 2 else 1

/-- Serialized length of a JSON string literal: two quotes plus the
escaped characters. -/
def strLitLen (l : List Char) : Nat :=
  2 + (l.map escLen).sum

mutual

/-- Length of the string `JSON.stringify` produces for a value. -/
def jsonLen : JsonVal → Nat
  | JsonVal.str s => strLitLen s.data
  | JsonVal.arr l => 2 + arrLen l
  | JsonVal.obj l => 2 + objLen l

/-- Length of a comma-separated serialized array body. -/
def arrLen : List JsonVal → Nat
  | [] => 0
  | [v] => jsonLen v
  | v :: w :: rest => jsonLen v + 1 + arrLen (w :: rest)

/-- Length of a comma-separated serialized object body
(`"key":value` per entry). -/
def objLen : List (String × JsonVal) → Nat
  | [] => 0
  | [(k, v)] => strLitLen k.data + 1 + jsonLen v
  | (k, v) :: w :: rest => strLitLen k.data + 1 + jsonLen v + 1 + objLen (w :: rest)

end

/-- Serialization of a note by `JSON.stringify` (field order as the
object literal in `addNote` builds it). -/
def noteToJson (n : Note) : JsonVal :=
  JsonVal.obj
    [("id", JsonVal.str n.id),
     ("title", JsonVal.str n.title),
     ("content", JsonVal.str n.content),
     ("tags", JsonVal.arr (n.tags.map JsonVal.str)),
     ("createdAt", JsonVal.str n.createdAt),
     ("updatedAt", JsonVal.str n.updatedAt)]

/-- Serialization of a tag by `JSON.stringify`. -/
def tagToJson (t : Tag) : JsonVal :=
  JsonVal.obj
    [("id", JsonVal.str t.id),
     ("name", JsonVal.str t.name),
     ("color", JsonVal.str t.color)]

/-- Read a field off a parsed JSON object (JS property access). -/
def getField (fields : List (String × JsonVal)) (k : String) : Option JsonVal :=
  (fields.find? (fun p => p.1 == k)).map (fun p => p.2)

/-- View a JSON value as a string. -/
def asStr : JsonVal → Option String
  | JsonVal.str s => some s
  | _ => none

/-- View a JSON value as an array. -/
def asArr : JsonVal → Option (List JsonVal)
  | JsonVal.arr l => some l
  | _ => none

/-- View a parsed JSON array as a list of strings. -/
def strListFromJson : List JsonVal → Option (List String)
  | [] => some []
  | v :: rest => do
    let s ← asStr v
    let t ← strListFromJson rest
    pure (s :: t)

/-- Reading a parsed record back at the `Note` type (the TS code casts
structurally; this is the typed rendering of that boundary). -/
def noteFromJson (v : JsonVal) : Option Note :=
  match v with
  | JsonVal.obj fields => do
    let id ← getField fields "id" >>= asStr
    let title ← getField fields "title" >>= asStr
    let content ← getField fields "content" >>= asStr
    let tagsArr ← getField fields "tags" >>= asArr
    let tags ← strListFromJson tagsArr
    let createdAt ← getField fields "createdAt" >>= asStr
    let updatedAt ← getField fields "updatedAt" >>= asStr
    pure { id := id, title := title, content := content, tags := tags,
           createdAt := createdAt, updatedAt := updatedAt }
  | _ => none

/-- Decode a parsed JSON array of note records. -/
def decodeNotes : List JsonVal → Option (List Note)
  | [] => some []
  | v :: rest => do
    let n ← noteFromJson v
    let t ← decodeNotes rest
    pure (n :: t)

/-- The browser `localStorage` visible to the adapter: whether writes
are possible at all, and the key-value content (values kept as parsed
JSON trees, see above). -/
structure LocalStorage where
  available : Bool
  items : List (String × JsonVal)

/-- `localStorage.getItem` (null for a missing key). -/
def getItem (st : LocalStorage) (k : String) : Option JsonVal :=
  (st.items.find? (fun p => p.1 == k)).map (fun p => p.2)

/-- `localStorage.setItem`. -/
def setItem (st : LocalStorage) (k : String) (v : JsonVal) : LocalStorage :=
  { st with items := recordSet st.items k v }

/-- `localStorage.removeItem`. -/
def removeItem (st : LocalStorage) (k : String) : LocalStorage :=
  { st with items := st.items.filter (fun p => !(p.1 == k)) }

/-- `isStorageAvailable`: the probe writes and removes a test key; its
outcome is exactly whether the underlying store accepts writes, which
the embedding carries as the `available` flag. -/
def isStorageAvailable (st : LocalStorage) : Bool :=
  st.available

def NOTES_KEY : String := "notes-app-notes"

def TAGS_KEY : String := "notes-app-tags"

/-- Result type of the adapter (`StorageResult<T>`). -/
inductive ErrorType where
  | quota_exceeded
  | parse_error
  | write_error
  | read_error
deriving DecidableEq, Repr

/-- `StorageError`. -/
structure StorageError where
  type : ErrorType
  message : String
deriving DecidableEq, Repr

/-- `StorageResult<T>`. -/
structure StorageResult (α : Type) where
  success : Bool
  data : Option α
  error : Option StorageError
deriving DecidableEq, Repr

/-- `getDefaultTags`: the fixed seed tags for first-run use. -/
def getDefaultTags : List Tag :=
  [{ id := "tag-1", name := "Kişisel", color := "#3b82f6" },
   { id := "tag-2", name := "İş", color := "#22c55e" },
   { id := "tag-3", name := "Fikir", color := "#eab308" },
   { id := "tag-4", name := "Önemli", color := "#ef4444" }]

/-- `getStorageUsage` result. -/
structure StorageUsage where
  used : Nat
  total : Nat
  percentage : Nat
deriving DecidableEq, Repr

/-- `getStorageUsage`: twice the summed key and value string lengths
(UTF-16 units), against the approximate 5 MB total.  `Math.round` of
`used / total * 100` is rendered with exact rational rounding. -/
def getStorageUsage (st : LocalStorage) : StorageUsage :=
  if !(isStorageAvailable st) then
    { used := 0, total := 0, percentage := 0 }
  else
    let used := 2 * (st.items.map (fun p => p.1.length + jsonLen p.2)).sum
    let total := 5 * 1024 * 1024
    { used := used, total := total, percentage := (used * 100 + total / 2) / total }

/-- `hasEnoughSpace`: `used + dataSize < total * 0.9`.  With
`total = 5 * 1024 * 1024`, the IEEE-754 product `total * 0.9` lies
strictly between `4718592` and `4718593`, so for integers the strict
comparison is `used + dataSize ≤ 4718592`; with `total = 0` (storage
unavailable) it is false. -/
def hasEnoughSpace (st : LocalStorage) (dataSize : Nat) : Bool :=
  let u := getStorageUsage st
  if u.total == 0 then false else u.used + dataSize ≤ 4718592

/-- `storage.getNotes`: unavailable store fails with `read_error`; a
missing key reads as the empty collection; a non-array payload fails
with `parse_error`; otherwise the parsed records are returned as-is
(the source validates only `Array.isArray`, not the elements). -/
def storageGetNotes (st : LocalStorage) : StorageResult (List JsonVal) :=
  if !(isStorageAvailable st) then
    { success := false, data := some [],
      error := some { type := ErrorType.read_error, message := "localStorage kullanılamıyor" } }
  else
    match getItem st NOTES_KEY with
    | none => { success := true, data := some [], error := none }
    | some v =>
      match asArr v with
      | some l => { success := true, data := some l, error := none }
      | none =>
        { success := false, data := some [],
          error := some { type := ErrorType.parse_error, message := "Geçersiz not verisi" } }

/-- `storage.setNotes`: unavailable store fails with `write_error`;
fails with `quota_exceeded` when the capacity pre-check rejects twice
the serialized length; otherwise stores the serialized array. (The
`catch` translating a platform quota exception is unreachable in the
model: `setItem` on an available store succeeds.) -/
def storageSetNotes (notes : List Note) (st : LocalStorage) :
    StorageResult Unit × LocalStorage :=
  if !(isStorageAvailable st) then
    ({ success := false, data := none,
       error := some { type := ErrorType.write_error, message := "localStorage kullanılamıyor" } }, st)
  else
    let dataJson := JsonVal.arr (notes.map noteToJson)
    if !(hasEnoughSpace st (jsonLen dataJson * 2)) then
      ({ success := false, data := none,
         error := some { type := ErrorType.quota_exceeded, message := "Depolama alanı dolu" } }, st)
    else
      ({ success := true, data := none, error := none }, setItem st NOTES_KEY dataJson)

/-- `storage.getTags`: an unavailable store or a missing key yields a
SUCCESS result carrying the default seed tags; a non-array payload
fails with `parse_error` (still carrying the defaults); a parse
exception also falls back to success with the defaults. -/
def storageGetTags (st : LocalStorage) : StorageResult (List JsonVal) :=
  if !(isStorageAvailable st) then
    { success := true, data := some (getDefaultTags.map tagToJson), error := none }
  else
    match getItem st TAGS_KEY with
    | none => { success := true, data := some (getDefaultTags.map tagToJson), error := none }
    | some v =>
      match asArr v with
      | some l => { success := true, data := some l, error := none }
      | none =>
        { success := false, data := some (getDefaultTags.map tagToJson),
          error := some { type := ErrorType.parse_error, message := "Geçersiz etiket verisi" } }

/-- `storage.setTags`: unavailable store fails with `write_error`;
otherwise stores the serialized array (no capacity pre-check here). -/
def storageSetTags (tags : List Tag) (st : LocalStorage) :
    StorageResult Unit × LocalStorage :=
  if !(isStorageAvailable st) then
    ({ success := false, data := none,
       error := some { type := ErrorType.write_error, message := "localStorage kullanılamıyor" } }, st)
  else
    ({ success := true, data := none, error := none },
      setItem st TAGS_KEY (JsonVal.arr (tags.map tagToJson)))

/-- `storage.clearAll`: unavailable store fails with `write_error`;
otherwise removes both keys. -/
def storageClearAll (st : LocalStorage) : StorageResult Unit × LocalStorage :=
  if !(isStorageAvailable st) then
    ({ success := false, data := none,
       error := some { type := ErrorType.write_error, message := "localStorage kullanılamıyor" } }, st)
  else
    ({ success := true, data := none, error := none },
      removeItem (removeItem st NOTES_KEY) TAGS_KEY)

/-! ## Auto-save debounce (`src/hooks/useAutoSave.ts`)

The debounced effect is modelled operationally on a discrete
millisecond timeline.  Each render with changed `data` runs the
effect: it clears any pending timeout and schedules a new one `delay`
ms later, while `dataRef` tracks the latest snapshot.  A due timeout
commits `dataRef`. -/

/-- Timer/ref state of one `useAutoSave` instance, plus the log of
commits it has performed (commit time paired with the data handed to
the callback). -/
structure DebounceState (α : Type) where
  dataRef : α
  pendingAt : Option Nat
  commits : List (Nat × α)
deriving DecidableEq, Repr

/-- Fire the pending timeout if its due time has been reached. -/
def fireIfDue {α : Type} (st : DebounceState α) (now : Nat) : DebounceState α :=
  match st.pendingAt with
  | some tf =>
    if tf ≤ now then
      { st with pendingAt := none, commits := st.commits ++ [(tf, st.dataRef)] }
    else st
  | none => st

/-- Deliver an edit snapshot at time `e.1`: any timeout already due has
fired; the effect then clears the pending timeout, stores the snapshot
in `dataRef` and schedules a commit at `e.1 + delay`. -/
def processEvent {α : Type} (delay : Nat) (st : DebounceState α) (e : Nat × α) :
    DebounceState α :=
  let st1 := fireIfDue st e.1
  { st1 with dataRef := e.2, pendingAt := some (e.1 + delay) }

/-- Run a whole edit timeline (snapshots in arrival order) and then let
any remaining timeout fire. -/
def runAutoSave {α : Type} (delay : Nat) (init : α) (events : List (Nat × α)) :
    DebounceState α :=
  let final := events.foldl (processEvent delay) { dataRef := init, pendingAt := none, commits := [] }
  match final.pendingAt with
  | some tf => { final with pendingAt := none, commits := final.commits ++ [(tf, final.dataRef)] }
  | none => final

/-- Consecutive snapshots are in order and each arrives strictly within
`delay` of its predecessor. -/
def gapsOk {α : Type} (delay : Nat) : List (Nat × α) → Bool
  | [] => true
  | [_] => true
  | a :: b :: rest => (a.1 ≤ b.1 && b.1 < a.1 + delay) && gapsOk delay (b :: rest)

/-! ## Note detail page (`src/pages/NoteDetailPage.tsx`)

`handleAutoSave` is the auto-save callback; its observable effects are
the store mutations it requests (`addNote` / `updateNote`), the
navigation it requests, and the page-level save indicator. -/

/-- A store mutation requested by the page. -/
inductive StoreCall where
  | addNoteCall (id : String) (data : NoteFormData)
  | updateNoteCall (id : String) (data : NoteFormData)
deriving DecidableEq, Repr

/-- A navigation request; `replaceTo id` is
`navigate('/note/' + id, { replace: true })` — replace the current
location without a new history entry. -/
inductive NavCall where
  | replaceTo (noteId : String)
deriving DecidableEq, Repr

/-- The page's own save indicator (`'saved' | 'saving' | 'unsaved'`). -/
inductive PageSaveStatus where
  | saved
  | saving
  | unsaved
deriving DecidableEq, Repr

/-- Page state: the `hasCreatedNote` / `createdNoteId` refs, the save
indicator, and the logs of requested store mutations and navigations
(oldest first). -/
structure PageState where
  hasCreatedNote : Bool
  createdNoteId : Option String
  saveStatus : PageSaveStatus
  storeCalls : List StoreCall
  navCalls : List NavCall
deriving DecidableEq, Repr

/-- `handleAutoSave`: return early on a blank title; otherwise set the
indicator to `saving` and either create (new note, not yet created:
call `addNote`, latch the fresh id, request replace-navigation) or
update (`updateNote` with `createdNoteId.current || id`).  `freshId`
is the uuid `addNote` would mint; the deferred
`setTimeout(() => setSaveStatus('saved'), 500)` is a separate timer
outside this step.  (`createdNoteId.current || id` falls through on a
falsy latched id; a latched uuid is never the empty string, so the
latched id wins whenever present.) -/
def handleAutoSave (isNewNote : Bool) (routeId : Option String) (freshId : String)
    (data : NoteFormData) (st : PageState) : PageState :=
  if jsTrim data.title == "" then st
  else
    let st1 := { st with saveStatus := PageSaveStatus.saving }
    if isNewNote && !st1.hasCreatedNote then
      { st1 with
        hasCreatedNote := true,
        createdNoteId := some freshId,
        storeCalls := st1.storeCalls ++ [StoreCall.addNoteCall freshId data],
        navCalls := st1.navCalls ++ [NavCall.replaceTo freshId] }
    else
      match st1.createdNoteId with
      | some nid => { st1 with storeCalls := st1.storeCalls ++ [StoreCall.updateNoteCall nid data] }
      | none =>
        match routeId with
        | some rid => { st1 with storeCalls := st1.storeCalls ++ [StoreCall.updateNoteCall rid data] }
        | none => st1

/-- The hook status (`AutoSaveStatus`) of `useAutoSave`. -/
inductive AutoSaveStatus where
  | idle
  | saving
  | saved
  | error
deriving DecidableEq, Repr

/-- Hook status state: current value plus the trace of every status
assignment `executeSave` makes. -/
structure HookState where
  status : AutoSaveStatus
  statusTrace : List AutoSaveStatus
deriving DecidableEq, Repr

/-- `executeSave`: unconditionally set status `saving`, run the
callback, then set status `saved`.  (The `catch` branch is unreachable
here because the embedded callback is a total function, and the later
2000 ms reset to `idle` is a separate timer outside this step.) -/
def executeSave (commit : PageState → PageState) (hs : HookState) (ps : PageState) :
    HookState × PageState :=
  let hs1 : HookState :=
    { status := AutoSaveStatus.saving, statusTrace := hs.statusTrace ++ [AutoSaveStatus.saving] }
  let ps1 := commit ps
  ({ status := AutoSaveStatus.saved, statusTrace := hs1.statusTrace ++ [AutoSaveStatus.saved] },
   ps1)

/-- One timer-elapsed commit as seen by the page: the route situation
at that moment, the uuid a fresh `addNote` would return, and the
snapshot being committed. -/
structure CommitEvent where
  isNewNote : Bool
  routeId : Option String
  freshId : String
  data : NoteFormData
deriving DecidableEq, Repr

/-- Run a sequence of commits through `handleAutoSave`. -/
def runCommits (events : List CommitEvent) (st : PageState) : PageState :=
  events.foldl
    (fun s e => handleAutoSave e.isNewNote e.routeId e.freshId e.data s) st

/-- The page state when composing a note from a blank slate
(`/note/new`): nothing created or latched yet, no calls issued. -/
def blankSlate : PageState :=
  { hasCreatedNote := false, createdNoteId := none,
    saveStatus := PageSaveStatus.saved, storeCalls := [], navCalls := [] }

/-! ## Theorems settling the claims -/

theorem char_beq_false_of_toNat_ne {a b : Char} (h : a.toNat ≠ b.toNat) : (a == b) = false :=
  beq_eq_false_iff_ne.mpr (fun hab => h (congrArg Char.toNat hab))

theorem charToNat_ofNat_of_bounds (n : Nat) (h1 : 65 ≤ n) (h2 : n ≤ 122) :
    (Char.ofNat n).toNat = n := by
  have hv : n.isValidChar := Or.inl (by omega)
  simp [Char.ofNat, hv, Char.ofNatAux, Char.toNat, UInt32.toNat, BitVec.toNat_ofNatLt]

theorem isWs_eq_false_of_ge (d : Char) (hd : 65 ≤ d.toNat) : isWs d = false := by
  have h1 : (d == ' ') = false := char_beq_false_of_toNat_ne (by
    have e : (' ' : Char).toNat = 32 := rfl
    omega)
  have h2 : (d == '\t') = false := char_beq_false_of_toNat_ne (by
    have e : ('\t' : Char).toNat = 9 := rfl
    omega)
  have h3 : (d == '\n') = false := char_beq_false_of_toNat_ne (by
    have e : ('\n' : Char).toNat = 10 := rfl
    omega)
  have h4 : (d == '\r') = false := char_beq_false_of_toNat_ne (by
    have e : ('\r' : Char).toNat = 13 := rfl
    omega)
  simp [isWs, h1, h2, h3, h4]

theorem isWs_toLower (c : Char) : isWs c.toLower = isWs c := by
  unfold Char.toLower
  dsimp only
  split
  next h =>
    have e : (Char.ofNat (c.toNat + 32)).toNat = c.toNat + 32 :=
      charToNat_ofNat_of_bounds _ (by omega) (by omega)
    rw [isWs_eq_false_of_ge _ (by omega), isWs_eq_false_of_ge _ (by omega)]
  next h => rfl

theorem jsTrimList_map_toLower (l : List Char) :
    jsTrimList (l.map Char.toLower) = (jsTrimList l).map Char.toLower := by
  have hw : (isWs ∘ Char.toLower) = isWs := funext isWs_toLower
  unfold jsTrimList
  rw [List.dropWhile_map, hw, ← List.map_reverse, List.dropWhile_map, hw, ← List.map_reverse]

theorem string_mk_eq_empty_iff (l : List Char) : (String.mk l = "") ↔ l = [] := by
  constructor
  · intro h
    have := congrArg String.data h
    simpa using this
  · intro h
    subst h
    rfl

theorem jsTrim_toLower_beq_empty (s : String) :
    (jsTrim (jsToLower s) == "") = (jsTrim s == "") := by
  apply Bool.eq_iff_iff.mpr
  rw [beq_iff_eq, beq_iff_eq]
  unfold jsTrim jsToLower
  dsimp only
  rw [jsTrimList_map_toLower, string_mk_eq_empty_iff, string_mk_eq_empty_iff, List.map_eq_nil_iff]

/-- C1 (amended): for every store state, the filtered-notes query returns
exactly those notes for which (the trimmed query is empty, or the
trimmed lowercase query is a substring of the lowercase title or of the
lowercase content) and (the selected tag set is empty, or every
selected tag id is present in the note's tag set), preserving the
relative order of the notes sequence. -/
theorem selectFilteredNotes_eq_filter_specMatches (st : NotesState) :
    selectFilteredNotes st =
      st.notes.filter (specMatches st.searchQuery st.selectedTags) := by
  unfold selectFilteredNotes specMatches
  by_cases h : (jsTrim st.searchQuery == "" && st.selectedTags.isEmpty) = true
  · rw [if_pos h]
    obtain ⟨h1, h2⟩ := Bool.and_eq_true_iff.mp h
    symm
    apply List.filter_eq_self.mpr
    intro a _
    rw [h1, h2]
    rfl
  · rw [if_neg h]
    apply List.filter_congr
    intro a _
    rw [jsTrim_toLower_beq_empty]

/-- C1 counterexample: with the query `" x"` (leading space) and a note
titled `"ax"`, the code trims the query and returns the note, while the
claim's untrimmed predicate excludes it — the claim as stated fails. -/
theorem selectFilteredNotes_claim_counterexample :
    selectFilteredNotes
        { notes := [⟨"n1", "ax", "", [], "", ""⟩],
          tags := [], selectedNote := none, tagsById := [],
          searchQuery := " x", selectedTags := [] } ≠
      ([⟨"n1", "ax", "", [], "", ""⟩] : List Note).filter
        (specMatchesClaim " x" []) := by
  decide

/-- C5: for every store state and tag id T, `deleteTag T` produces, in
the one state transition of its single `set` call, a state in which no
tag in the tags collection has id T and no note's tag set contains
T. -/
theorem deleteTag_cascade (T : String) (st : NotesState) :
    ((deleteTag T st).tags.all (fun tg => !(tg.id == T))) = true ∧
    ((deleteTag T st).notes.all (fun n => !(n.tags.contains T))) = true := by
  constructor
  · apply List.all_eq_true.mpr
    intro tg htg
    unfold deleteTag at htg
    simp only [List.mem_filter] at htg
    exact htg.2
  · apply List.all_eq_true.mpr
    intro n hn
    unfold deleteTag at hn
    simp only [List.mem_map] at hn
    obtain ⟨m, hm, rfl⟩ := hn
    simp [List.elem_eq_mem, List.mem_filter]

/-- C9: `deleteTag id` removes `id` from the selected-tags filter in
the same state transition, and leaves exactly the other selected ids,
so the active filter never retains a just-deleted tag id. -/
theorem deleteTag_clears_selected (id : String) (st : NotesState) :
    ((deleteTag id st).selectedTags.contains id) = false ∧
    ∀ t, t ∈ (deleteTag id st).selectedTags ↔ (t ∈ st.selectedTags ∧ t ≠ id) := by
  constructor
  · unfold deleteTag
    simp [List.elem_eq_mem, List.mem_filter]
  · intro t
    unfold deleteTag
    simp [List.mem_filter]

/-- C7: deleting an id not present in the notes sequence leaves the
notes sequence unchanged; `deleteNote` is a total state transformer, so
the not-found case is signalled by the unchanged state, never by an
exception. -/
theorem deleteNote_not_found_noop (id : String) (st : NotesState)
    (h : (st.notes.all (fun n => !(n.id == id))) = true) :
    (deleteNote id st).notes = st.notes := by
  unfold deleteNote
  exact List.filter_eq_self.mpr (fun a ha => List.all_eq_true.mp h a ha)

/-- C7 witness: deleting id `"b"` from a store holding only note `"a"`
leaves the notes sequence unchanged. -/
theorem deleteNote_not_found_noop_witness :
    (([⟨"a", "t", "c", [], "", ""⟩] : List Note).all (fun n => !(n.id == "b"))) = true ∧
    (deleteNote "b"
        { notes := [⟨"a", "t", "c", [], "", ""⟩], tags := [], selectedNote := none,
          tagsById := [], searchQuery := "", selectedTags := [] }).notes =
      [⟨"a", "t", "c", [], "", ""⟩] :=
  ⟨by decide, deleteNote_not_found_noop "b" _ (by decide)⟩

theorem applyUpdate_id (n : Note) (u : NoteUpdate) (now : String) :
    (applyUpdate n u now).id = n.id := rfl

theorem find?_map_applyUpdate (X now : String) (u : NoteUpdate) (l : List Note) :
    (l.map (fun note => if note.id == X then applyUpdate note u now else note)).find?
        (fun m => m.id == X) =
      (l.find? (fun n => n.id == X)).map (fun n => applyUpdate n u now) := by
  induction l with
  | nil => rfl
  | cons a t ih =>
    rw [List.map_cons]
    by_cases h : (a.id == X) = true
    · have h2 : ((applyUpdate a u now).id == X) = true := by
        rw [applyUpdate_id]
        exact h
      rw [if_pos h, @List.find?_cons_of_pos _ (fun m => m.id == X) (applyUpdate a u now) _ h2,
        @List.find?_cons_of_pos _ (fun n => n.id == X) a _ h]
      rfl
    · rw [if_neg h, @List.find?_cons_of_neg _ (fun m => m.id == X) a _ h,
        @List.find?_cons_of_neg _ (fun n => n.id == X) a _ h, ih]

/-- C10: when the selected note has id X and X is found in the notes
sequence, `updateNote X` sets `selectedNote` to the merged note with
refreshed `updatedAt` — the very record stored in the updated notes
sequence, never the stale pre-update copy. -/
theorem updateNote_selectedNote_fresh (now X : String) (u : NoteUpdate) (st : NotesState)
    (sn w : Note) (hsel : st.selectedNote = some sn) (hid : sn.id = X)
    (hfind : st.notes.find? (fun n => n.id == X) = some w) :
    (updateNote now X u st).selectedNote = some (applyUpdate w u now) ∧
    (updateNote now X u st).notes.find? (fun m => m.id == X) = some (applyUpdate w u now) := by
  unfold updateNote
  rw [hsel]
  dsimp only
  have hb : (sn.id == X) = true := beq_iff_eq.mpr hid
  rw [hb]
  simp only [if_true]
  rw [find?_map_applyUpdate, hfind]
  exact ⟨rfl, rfl⟩

theorem foldl_processEvent_pending {α : Type} (delay : Nat) :
    ∀ (rest : List (Nat × α)) (t0 : Nat) (d0 : α) (c : List (Nat × α)),
      gapsOk delay ((t0, d0) :: rest) = true →
      rest.foldl (processEvent delay)
          { dataRef := d0, pendingAt := some (t0 + delay), commits := c } =
        { dataRef := (rest.getLastD (t0, d0)).2,
          pendingAt := some ((rest.getLastD (t0, d0)).1 + delay),
          commits := c } := by
  intro rest
  induction rest with
  | nil => intro t0 d0 c h; rfl
  | cons e rest ih =>
    intro t0 d0 c h
    obtain ⟨t1, d1⟩ := e
    unfold gapsOk at h
    simp only [Bool.and_eq_true, decide_eq_true_eq] at h
    obtain ⟨⟨hle, hlt⟩, hrest⟩ := h
    have hfire : processEvent delay
        { dataRef := d0, pendingAt := some (t0 + delay), commits := c } (t1, d1) =
        { dataRef := d1, pendingAt := some (t1 + delay), commits := c } := by
      unfold processEvent fireIfDue
      dsimp only
      rw [if_neg (by omega : ¬ t0 + delay ≤ t1)]
    rw [List.foldl_cons, hfire, ih t1 d1 c hrest, List.getLastD_cons]

/-- C2: for every sequence of edit snapshots each arriving within the
debounce delay of its predecessor, exactly one commit occurs, one full
delay after the last snapshot, and it carries the last snapshot's data;
earlier snapshots are never committed. -/
theorem debounce_coalescing {α : Type} (delay : Nat) (init d0 : α) (t0 : Nat)
    (rest : List (Nat × α)) (h : gapsOk delay ((t0, d0) :: rest) = true) :
    (runAutoSave delay init ((t0, d0) :: rest)).commits =
      [((rest.getLastD (t0, d0)).1 + delay, (rest.getLastD (t0, d0)).2)] := by
  unfold runAutoSave
  rw [List.foldl_cons]
  have h0 : processEvent delay
      { dataRef := init, pendingAt := none, commits := [] } (t0, d0) =
      { dataRef := d0, pendingAt := some (t0 + delay), commits := [] } := rfl
  rw [h0, foldl_processEvent_pending delay rest t0 d0 [] h]
  rfl

/-- C2 witness: edits at t = 0, 100, 200, 300 ms with a 1000 ms delay
produce exactly one commit, at 1300 ms, with the t = 300 snapshot. -/
theorem debounce_coalescing_witness :
    gapsOk 1000 [((0 : Nat), "a"), (100, "b"), (200, "c"), (300, "d")] = true ∧
    (runAutoSave 1000 "init" [((0 : Nat), "a"), (100, "b"), (200, "c"), (300, "d")]).commits =
      [(1300, "d")] := by
  refine ⟨by decide, ?_⟩
  have := debounce_coalescing 1000 "init" "a" 0 [(100, "b"), (200, "c"), (300, "d")] (by decide)
  simpa using this

theorem runCommits_latched (nid : String) :
    ∀ (events : List CommitEvent) (st : PageState),
      st.hasCreatedNote = true →
      st.createdNoteId = some nid →
      (events.all (fun e => !(jsTrim e.data.title == ""))) = true →
      (runCommits events st).storeCalls =
          st.storeCalls ++ events.map (fun e => StoreCall.updateNoteCall nid e.data) ∧
      (runCommits events st).navCalls = st.navCalls ∧
      (runCommits events st).hasCreatedNote = true ∧
      (runCommits events st).createdNoteId = some nid := by
  intro events
  induction events with
  | nil =>
    intro st h1 h2 _
    exact ⟨by simp [runCommits], rfl, h1, h2⟩
  | cons e rest ih =>
    intro st h1 h2 h3
    rw [List.all_cons, Bool.and_eq_true] at h3
    obtain ⟨htitle, hrest⟩ := h3
    have hblank : (jsTrim e.data.title == "") = false := by
      rwa [Bool.not_eq_true'] at htitle
    have hstep : handleAutoSave e.isNewNote e.routeId e.freshId e.data st =
        { st with saveStatus := PageSaveStatus.saving,
                  storeCalls := st.storeCalls ++ [StoreCall.updateNoteCall nid e.data] } := by
      unfold handleAutoSave
      rw [if_neg (by rw [hblank]; exact Bool.false_ne_true)]
      dsimp only
      rw [h1]
      simp only [Bool.not_true, Bool.and_false, Bool.false_eq_true, if_false]
      rw [h2]
    have hrun : runCommits (e :: rest) st =
        runCommits rest (handleAutoSave e.isNewNote e.routeId e.freshId e.data st) := by
      unfold runCommits
      rw [List.foldl_cons]
    rw [hrun, hstep]
    obtain ⟨c1, c2, c3, c4⟩ := ih
      { st with saveStatus := PageSaveStatus.saving,
                storeCalls := st.storeCalls ++ [StoreCall.updateNoteCall nid e.data] }
      h1 h2 hrest
    refine ⟨?_, c2, c3, c4⟩
    rw [c1]
    simp [List.append_assoc]

/-- C3: starting from a blank slate, a sequence of successful commits
calls `addNote` exactly once (on the first commit), latches the
returned id, requests exactly one replace-navigation to the new id, and
every subsequent commit calls `updateNote` with the latched id —
whatever the route reports afterwards. -/
theorem new_note_latch (e : CommitEvent) (rest : List CommitEvent)
    (hnew : e.isNewNote = true)
    (htitles : (List.all (e :: rest) (fun ev => !(jsTrim ev.data.title == ""))) = true) :
    (runCommits (e :: rest) blankSlate).storeCalls =
        StoreCall.addNoteCall e.freshId e.data ::
          rest.map (fun ev => StoreCall.updateNoteCall e.freshId ev.data) ∧
    (runCommits (e :: rest) blankSlate).navCalls = [NavCall.replaceTo e.freshId] ∧
    (runCommits (e :: rest) blankSlate).hasCreatedNote = true ∧
    (runCommits (e :: rest) blankSlate).createdNoteId = some e.freshId := by
  rw [List.all_cons, Bool.and_eq_true] at htitles
  obtain ⟨htitle, hrest⟩ := htitles
  have hblank : (jsTrim e.data.title == "") = false := by
    rwa [Bool.not_eq_true'] at htitle
  have hstep : handleAutoSave e.isNewNote e.routeId e.freshId e.data blankSlate =
      { hasCreatedNote := true, createdNoteId := some e.freshId,
        saveStatus := PageSaveStatus.saving,
        storeCalls := [StoreCall.addNoteCall e.freshId e.data],
        navCalls := [NavCall.replaceTo e.freshId] } := by
    unfold handleAutoSave blankSlate
    rw [if_neg (by rw [hblank]; exact Bool.false_ne_true)]
    dsimp only
    rw [hnew]
    rfl
  have hrun : runCommits (e :: rest) blankSlate =
      runCommits rest (handleAutoSave e.isNewNote e.routeId e.freshId e.data blankSlate) := by
    unfold runCommits
    rw [List.foldl_cons]
  rw [hrun, hstep]
  obtain ⟨c1, c2, c3, c4⟩ := runCommits_latched e.freshId rest
    { hasCreatedNote := true, createdNoteId := some e.freshId,
      saveStatus := PageSaveStatus.saving,
      storeCalls := [StoreCall.addNoteCall e.freshId e.data],
      navCalls := [NavCall.replaceTo e.freshId] }
    rfl rfl hrest
  exact ⟨by rw [c1]; rfl, c2, c3, c4⟩

/-- C4 (amended): a blank-titled snapshot produces zero store mutations
and leaves the whole page state (including its save indicator)
unchanged, but the hook-level status still transitions away from idle,
through `saving` to `saved`, because `executeSave` sets it before
invoking the callback. -/
theorem empty_title_suppression (isNew : Bool) (routeId : Option String) (freshId : String)
    (data : NoteFormData) (hs : HookState) (ps : PageState)
    (h : (jsTrim data.title == "") = true) :
    (executeSave (handleAutoSave isNew routeId freshId data) hs ps).2 = ps ∧
    (executeSave (handleAutoSave isNew routeId freshId data) hs ps).1.status = AutoSaveStatus.saved ∧
    (executeSave (handleAutoSave isNew routeId freshId data) hs ps).1.statusTrace =
      hs.statusTrace ++ [AutoSaveStatus.saving, AutoSaveStatus.saved] := by
  have hcb : handleAutoSave isNew routeId freshId data ps = ps := by
    unfold handleAutoSave
    rw [if_pos h]
  unfold executeSave
  dsimp only
  rw [hcb]
  refine ⟨rfl, rfl, ?_⟩
  rw [List.append_assoc]
  rfl

/-- C4 counterexample: committing a blank-titled snapshot from the idle
hook status leaves the hook status at `saved`, not `idle` — the claim
that the save status never leaves idle fails on the code. -/
theorem empty_title_claim_counterexample :
    (executeSave
        (handleAutoSave true (some "new") "u1" { title := " ", content := "body", tags := [] })
        { status := AutoSaveStatus.idle, statusTrace := [] } blankSlate).1.status ≠
      AutoSaveStatus.idle := by
  decide

/-- C6 (amended): when the storage probe reports unavailable,
`getNotes`, `setNotes`, `setTags` and `clearAll` are no-ops returning a
failure result and leaving the store untouched, while `getTags`
returns a SUCCESS result carrying the default seed tags. -/
theorem unavailable_storage (st : LocalStorage) (notes : List Note) (tags : List Tag)
    (h : st.available = false) :
    (storageGetNotes st).success = false ∧
    (storageSetNotes notes st).1.success = false ∧
    (storageSetNotes notes st).2 = st ∧
    (storageSetTags tags st).1.success = false ∧
    (storageSetTags tags st).2 = st ∧
    (storageClearAll st).1.success = false ∧
    (storageClearAll st).2 = st ∧
    (storageGetTags st).success = true ∧
    (storageGetTags st).data = some (getDefaultTags.map tagToJson) := by
  have hav : (!(isStorageAvailable st)) = true := by
    unfold isStorageAvailable
    rw [h]
    rfl
  unfold storageGetNotes storageSetNotes storageSetTags storageClearAll storageGetTags
  simp [hav]

/-- C6 counterexample: on an unavailable store, `storage.getTags`
returns `success = true` (with the default tags), contradicting the
claim that every read/write operation returns a failure result. -/
theorem storage_unavailable_getTags_counterexample :
    (storageGetTags { available := false, items := [] }).success = true ∧
    isStorageAvailable { available := false, items := [] } = false :=
  ⟨rfl, rfl⟩

theorem find?_map_set_of_any {α : Type} (k : String) (v : α) :
    ∀ (items : List (String × α)), items.any (fun p => p.1 == k) = true →
      (items.map (fun p => if p.1 == k then (k, v) else p)).find? (fun p => p.1 == k) =
        some (k, v) := by
  intro items
  induction items with
  | nil => intro h; simp at h
  | cons a t ih =>
    intro h
    rw [List.any_cons, Bool.or_eq_true] at h
    rw [List.map_cons]
    by_cases ha : (a.1 == k) = true
    · rw [if_pos ha]
      exact @List.find?_cons_of_pos _ (fun p => p.1 == k) (k, v) _ (by simp)
    · rw [if_neg ha]
      rw [@List.find?_cons_of_neg _ (fun p => p.1 == k) a _ ha]
      exact ih (h.resolve_left ha)

theorem find?_recordSet {α : Type} (items : List (String × α)) (k : String) (v : α) :
    (recordSet items k v).find? (fun p => p.1 == k) = some (k, v) := by
  unfold recordSet
  by_cases h : (items.any (fun p => p.1 == k)) = true
  · rw [if_pos h]
    exact find?_map_set_of_any k v items h
  · rw [if_neg h]
    rw [List.find?_append]
    have hnone : items.find? (fun p => p.1 == k) = none :=
      List.find?_eq_none.mpr (fun x hx hpx =>
        h (List.any_eq_true.mpr ⟨x, hx, hpx⟩))
    rw [hnone]
    simp

theorem getItem_setItem (st : LocalStorage) (k : String) (v : JsonVal) :
    getItem (setItem st k v) k = some v := by
  unfold getItem setItem
  dsimp only
  rw [find?_recordSet]
  rfl

theorem strListFromJson_map_str (l : List String) :
    strListFromJson (l.map JsonVal.str) = some l := by
  induction l with
  | nil => rfl
  | cons a t ih =>
    rw [List.map_cons]
    simp [strListFromJson, asStr, ih]

theorem noteFromJson_noteToJson (n : Note) : noteFromJson (noteToJson n) = some n := by
  simp [noteFromJson, noteToJson, getField, List.find?, asStr, asArr, strListFromJson_map_str]

theorem decodeNotes_map_noteToJson (notes : List Note) :
    decodeNotes (notes.map noteToJson) = some notes := by
  induction notes with
  | nil => rfl
  | cons a t ih =>
    rw [List.map_cons]
    simp [decodeNotes, noteFromJson_noteToJson a, ih]

/-- C8: after a successful `writeNotes notes`, `readNotes` succeeds and
returns exactly the serialized records of `notes`, in order, and those
records decode back to exactly `notes`. -/
theorem writeNotes_readNotes_roundtrip (notes : List Note) (st : LocalStorage)
    (h : (storageSetNotes notes st).1.success = true) :
    (storageGetNotes (storageSetNotes notes st).2).success = true ∧
    (storageGetNotes (storageSetNotes notes st).2).data = some (notes.map noteToJson) ∧
    decodeNotes (notes.map noteToJson) = some notes := by
  unfold storageSetNotes at h ⊢
  cases hb : isStorageAvailable st with
  | false =>
    rw [if_pos (by simp [hb])] at h
    exact absurd h (by simp)
  | true =>
    rw [if_neg (by simp [hb])] at h ⊢
    dsimp only at h ⊢
    by_cases h2 : (!(hasEnoughSpace st (jsonLen (JsonVal.arr (notes.map noteToJson)) * 2))) = true
    · rw [if_pos h2] at h
      exact absurd h (by simp)
    · rw [if_neg h2] at h ⊢
      dsimp only
      unfold storageGetNotes
      have hav2 : (!(isStorageAvailable
          (setItem st NOTES_KEY (JsonVal.arr (notes.map noteToJson))))) = false := by
        show (!(isStorageAvailable st)) = false
        rw [hb]
        rfl
      rw [if_neg (by rw [hav2]; exact Bool.false_ne_true)]
      rw [getItem_setItem]
      exact ⟨rfl, rfl, decodeNotes_map_noteToJson notes⟩

/-- C3 witness: two commits from a blank slate produce one `addNote`
followed by one `updateNote` with the latched id, and one
replace-navigation. -/
theorem new_note_latch_witness :
    ((⟨true, some "new", "u1", ⟨"T", "c1", []⟩⟩ : CommitEvent).isNewNote = true) ∧
    (List.all
        [(⟨true, some "new", "u1", ⟨"T", "c1", []⟩⟩ : CommitEvent),
         ⟨false, some "u1", "u2", ⟨"T", "c2", []⟩⟩]
        (fun ev => !(jsTrim ev.data.title == ""))) = true ∧
    (runCommits
        [⟨true, some "new", "u1", ⟨"T", "c1", []⟩⟩,
         ⟨false, some "u1", "u2", ⟨"T", "c2", []⟩⟩] blankSlate).storeCalls =
      [StoreCall.addNoteCall "u1" ⟨"T", "c1", []⟩,
       StoreCall.updateNoteCall "u1" ⟨"T", "c2", []⟩] ∧
    (runCommits
        [⟨true, some "new", "u1", ⟨"T", "c1", []⟩⟩,
         ⟨false, some "u1", "u2", ⟨"T", "c2", []⟩⟩] blankSlate).navCalls =
      [NavCall.replaceTo "u1"] := by
  refine ⟨rfl, by decide, ?_, ?_⟩
  · exact (new_note_latch ⟨true, some "new", "u1", ⟨"T", "c1", []⟩⟩
      [⟨false, some "u1", "u2", ⟨"T", "c2", []⟩⟩] rfl (by decide)).1
  · exact (new_note_latch ⟨true, some "new", "u1", ⟨"T", "c1", []⟩⟩
      [⟨false, some "u1", "u2", ⟨"T", "c2", []⟩⟩] rfl (by decide)).2.1

/-- C4 witness: the amended suppression behaviour evaluated on a
concrete blank-titled snapshot. -/
theorem empty_title_suppression_witness :
    (jsTrim ((⟨" ", "body", []⟩ : NoteFormData).title) == "") = true ∧
    (executeSave (handleAutoSave true (some "new") "u1" ⟨" ", "body", []⟩)
        ⟨AutoSaveStatus.idle, []⟩ blankSlate).2 = blankSlate ∧
    (executeSave (handleAutoSave true (some "new") "u1" ⟨" ", "body", []⟩)
        ⟨AutoSaveStatus.idle, []⟩ blankSlate).1.status = AutoSaveStatus.saved := by
  refine ⟨by decide, ?_, ?_⟩
  · exact (empty_title_suppression true (some "new") "u1" ⟨" ", "body", []⟩
      ⟨AutoSaveStatus.idle, []⟩ blankSlate (by decide)).1
  · exact (empty_title_suppression true (some "new") "u1" ⟨" ", "body", []⟩
      ⟨AutoSaveStatus.idle, []⟩ blankSlate (by decide)).2.1

/-- C6 witness: the unavailable-store behaviour evaluated on the
concrete empty unavailable store. -/
theorem unavailable_storage_witness :
    (({ available := false, items := [] } : LocalStorage).available = false) ∧
    (storageGetNotes { available := false, items := [] }).success = false ∧
    (storageSetNotes [] { available := false, items := [] }).1.success = false ∧
    (storageClearAll { available := false, items := [] }).1.success = false := by
  refine ⟨rfl, ?_, ?_, ?_⟩
  · exact (unavailable_storage { available := false, items := [] } [] [] rfl).1
  · exact (unavailable_storage { available := false, items := [] } [] [] rfl).2.1
  · exact (unavailable_storage { available := false, items := [] } [] [] rfl).2.2.2.2.2.1

/-- C8 witness: the round trip evaluated on a concrete one-note
sequence and an empty available store. -/
theorem writeNotes_readNotes_roundtrip_witness :
    (storageSetNotes [⟨"a", "t", "c", ["x"], "d1", "d2"⟩]
        { available := true, items := [] }).1.success = true ∧
    (storageGetNotes (storageSetNotes [⟨"a", "t", "c", ["x"], "d1", "d2"⟩]
        { available := true, items := [] }).2).success = true ∧
    decodeNotes (([⟨"a", "t", "c", ["x"], "d1", "d2"⟩] : List Note).map noteToJson) =
      some [⟨"a", "t", "c", ["x"], "d1", "d2"⟩] := by
  refine ⟨rfl, ?_, ?_⟩
  · exact (writeNotes_readNotes_roundtrip [⟨"a", "t", "c", ["x"], "d1", "d2"⟩]
      { available := true, items := [] } rfl).1
  · exact (writeNotes_readNotes_roundtrip [⟨"a", "t", "c", ["x"], "d1", "d2"⟩]
      { available := true, items := [] } rfl).2.2

/-- C10 witness: updating the selected note `"a"` refreshes the
selection to the merged, re-stamped record. -/
theorem updateNote_selectedNote_fresh_witness :
    (({ notes := [⟨"a", "old", "c", [], "t0", "t0"⟩], tags := [],
        selectedNote := some ⟨"a", "old", "c", [], "t0", "t0"⟩, tagsById := [],
        searchQuery := "", selectedTags := [] } : NotesState).selectedNote =
      some ⟨"a", "old", "c", [], "t0", "t0"⟩) ∧
    ((⟨"a", "old", "c", [], "t0", "t0"⟩ : Note).id = "a") ∧
    (([⟨"a", "old", "c", [], "t0", "t0"⟩] : List Note).find? (fun n => n.id == "a") =
      some ⟨"a", "old", "c", [], "t0", "t0"⟩) ∧
    (updateNote "t1" "a" ⟨some "new", none, none⟩
        { notes := [⟨"a", "old", "c", [], "t0", "t0"⟩], tags := [],
          selectedNote := some ⟨"a", "old", "c", [], "t0", "t0"⟩, tagsById := [],
          searchQuery := "", selectedTags := [] }).selectedNote =
      some (applyUpdate ⟨"a", "old", "c", [], "t0", "t0"⟩ ⟨some "new", none, none⟩ "t1") := by
  refine ⟨rfl, rfl, rfl, ?_⟩
  exact (updateNote_selectedNote_fresh "t1" "a" ⟨some "new", none, none⟩
    { notes := [⟨"a", "old", "c", [], "t0", "t0"⟩], tags := [],
      selectedNote := some ⟨"a", "old", "c", [], "t0", "t0"⟩, tagsById := [],
      searchQuery := "", selectedTags := [] }
    ⟨"a", "old", "c", [], "t0", "t0"⟩ ⟨"a", "old", "c", [], "t0", "t0"⟩ rfl rfl rfl).1

end NotesApp
